import Mathlib

/-!
Verification of the filtering and pivot-aggregation engine of
`dekereke_pivot_tables` (docs/app.js), as a shallow embedding in Lean 4.

Records are association lists from field names to string values, mirroring
the JavaScript field→value objects.  The evaluator (`evaluateCondition`),
group evaluator (`evaluateFilterGroup`), filter pipeline (`applyFilters`),
pivot aggregator (`generatePivotTable`) and the field-value cache
(`getFieldValues` / `handleFileSelect` acting on `AppState`) are translated
from the source.  Two platform services are abstracted as parameters:

* the JavaScript `RegExp` facility (`new RegExp(p, 'i')` either throws a
  `SyntaxError` or yields a matcher; `regex.test` is the matcher), modelled
  by `RegexEngine` whose `compile` returns `Except`;
* the locale collator used by `naturalSort` (`a.localeCompare(b, ...)`),
  modelled by a comparator `cmp : String → String → Ordering`; the
  `Array.prototype.sort` call is modelled as a stable insertion sort by
  that comparator.
-/

namespace DekerekePivot

/-- A record is a field→value mapping; a JS object with string values. -/
abbrev Record := List (String × String)

/-- Association-list lookup, modelling JS object property access and
`Map.get`: the value stored under `key`, when present. -/
def assocLookup {b : Type} : List (String × b) → String → Option b
  | [], _ => none
  | (k, v) :: rest, key => if k = key then some v else assocLookup rest key

/-- JS `record[field] || ''`: a missing field, like an empty value, reads
as the empty string. -/
def getField (r : Record) (f : String) : String :=
  (assocLookup r f).getD ""

/-- ASCII lower-casing of one character, the base case of JS
`toLowerCase` (the source data is compared case-insensitively). -/
def lowerChar (c : Char) : Char :=
  if 65 ≤ c.toNat ∧ c.toNat ≤ 90 then Char.ofNat (c.toNat + 32) else c

/-- JS `s.toLowerCase()`. -/
def jsToLower (s : String) : String :=
  ⟨s.data.map lowerChar⟩

/-- Bool-valued test that `t` occurs as a contiguous run inside `s`. -/
def charsInfix (t : List Char) : List Char → Bool
  | [] => t.isEmpty
  | c :: rest => t.isPrefixOf (c :: rest) || charsInfix t rest

/-- JS `s.includes(t)` (substring containment). -/
def jsIncludes (s t : String) : Bool :=
  charsInfix t.data s.data

/-- JS `s.startsWith(t)`. -/
def jsStartsWith (s t : String) : Bool :=
  t.data.isPrefixOf s.data

/-- JS `s.endsWith(t)`. -/
def jsEndsWith (s t : String) : Bool :=
  t.data.isSuffixOf s.data

/-- The JS `RegExp` platform service: `compile p` models
`new RegExp(p, 'i')`, which either throws a `SyntaxError` (`Except.error`)
or yields a matcher `test` function. -/
structure RegexEngine where
  compile : String → Except String (String → Bool)

/-- Whether `new RegExp(p, 'i')` would throw for this engine. -/
def compileFails (E : RegexEngine) (p : String) : Bool :=
  match E.compile p with
  | Except.ok _ => false
  | Except.error _ => true

/-- One filter condition (the object built by `addFilterCondition`). -/
structure Condition where
  id : Nat
  field : String
  operator : String
  value : String
  values : List String
  useRegex : Bool
  negate : Bool
deriving DecidableEq

/-- One filter group (the object built by `createFilterGroup`). -/
structure FilterGroup where
  id : Nat
  logic : String
  conditions : List Condition
deriving DecidableEq

/-- The regex-mode `switch (condition.operator)` inside the `try` block of
`evaluateCondition` (app.js lines 309–328).  The bare pattern is compiled
first (line 310) for every operator; `starts-with` / `ends-with` then
compile an anchored pattern.  Errors propagate, to be caught by the
enclosing `catch`. -/
def regexSwitch (E : RegexEngine) (fieldValue testValue op : String) :
    Except String Bool := do
  let regex ← E.compile testValue
  if op == "equals" || op == "contains" then
    pure (regex fieldValue)
  else if op == "not-equals" || op == "not-contains" then
    pure (!(regex fieldValue))
  else if op == "starts-with" then do
    let anchored ← E.compile ("^" ++ testValue)
    pure (anchored fieldValue)
  else if op == "ends-with" then do
    let anchored ← E.compile (testValue ++ "$")
    pure (anchored fieldValue)
  else
    pure true

/-- The non-regex `switch (condition.operator)` inside the `try` block of
`evaluateCondition` (app.js lines 329–361). -/
def plainSwitch (fieldValue testValue op : String) : Bool :=
  let fieldLower := jsToLower fieldValue
  let testLower := jsToLower testValue
  if op == "equals" then fieldLower == testLower
  else if op == "not-equals" then !(fieldLower == testLower)
  else if op == "contains" then jsIncludes fieldLower testLower
  else if op == "not-contains" then !(jsIncludes fieldLower testLower)
  else if op == "starts-with" then jsStartsWith fieldLower testLower
  else if op == "ends-with" then jsEndsWith fieldLower testLower
  else if op == "empty" then fieldValue == ""
  else if op == "not-empty" then !(fieldValue == "")
  else true

/-- The `try` block of `evaluateCondition` (app.js lines 308–361): regex
mode may throw (propagated here as `Except.error`), the plain mode cannot. -/
def tryBlock (E : RegexEngine) (fieldValue testValue op : String)
    (useRegex : Bool) : Except String Bool :=
  if useRegex then regexSwitch E fieldValue testValue op
  else pure (plainSwitch fieldValue testValue op)

/-- The raw operator result of `evaluateCondition` (app.js lines 286–367),
before the final negation: the `in-list` branch, the empty-value vacuous
branch, and the `try`/`catch` around the operator switches, where the
`catch` turns any regex error into `false`. -/
def rawResult (E : RegexEngine) (record : Record) (c : Condition) : Bool :=
  let fieldValue := getField record c.field
  if c.operator == "in-list" then
    if c.values.isEmpty then true
    else c.values.any (fun v => jsToLower fieldValue == jsToLower v)
  else
    let testValue := c.value
    if testValue == "" && !(c.operator == "empty") && !(c.operator == "not-empty") then
      true
    else
      match tryBlock E fieldValue testValue c.operator c.useRegex with
      | Except.ok b => b
      | Except.error _ => false

/-- `evaluateCondition(record, condition)` (app.js lines 286–371): the raw
operator result, inverted when the NOT checkbox is set (line 370). -/
def evaluateCondition (E : RegexEngine) (record : Record) (c : Condition) : Bool :=
  if c.negate then !(rawResult E record c) else rawResult E record c

/-- `evaluateCondition` viewed in the exception monad: the `try` block's
errors surface as `Except.error` exactly where the source could throw, and
the `catch` (app.js lines 362–365) consumes them.  Used to state that no
exception escapes to the caller. -/
def evaluateConditionE (E : RegexEngine) (record : Record) (c : Condition) :
    Except String Bool := do
  let fieldValue := getField record c.field
  let raw ←
    if c.operator == "in-list" then
      pure (if c.values.isEmpty then true
            else c.values.any (fun v => jsToLower fieldValue == jsToLower v))
    else
      let testValue := c.value
      if testValue == "" && !(c.operator == "empty") && !(c.operator == "not-empty") then
        pure true
      else
        match tryBlock E fieldValue testValue c.operator c.useRegex with
        | Except.ok b => pure b
        | Except.error _ => pure false
  pure (if c.negate then !raw else raw)

/-- `evaluateFilterGroup(record, group)` (app.js lines 273–284). -/
def evaluateFilterGroup (E : RegexEngine) (record : Record) (g : FilterGroup) : Bool :=
  if g.conditions.isEmpty then true
  else if g.logic == "AND" then
    g.conditions.all (fun c => evaluateCondition E record c)
  else
    g.conditions.any (fun c => evaluateCondition E record c)

/-- `applyFilters(records)` (app.js lines 261–271), with the ambient
`state.filterGroups` passed explicitly. -/
def applyFilters (E : RegexEngine) (records : List Record)
    (groups : List FilterGroup) : List Record :=
  if groups.isEmpty then records
  else records.filter (fun record => groups.any (fun g => evaluateFilterGroup E record g))

/-- Insert one element into a list already ordered by `le` (the elementary
step of the stable sort modelling `Array.prototype.sort`). -/
def insertSorted (le : String → String → Bool) (x : String) :
    List String → List String
  | [] => [x]
  | y :: ys => if le x y then x :: y :: ys else y :: insertSorted le x ys

/-- JS `array.sort(naturalSort)` where `naturalSort` (app.js lines 190–192)
delegates to the locale collator, abstracted as `cmp`; modelled as a stable
insertion sort. -/
def sortByCmp (cmp : String → String → Ordering) (l : List String) : List String :=
  l.foldr (fun x acc => insertSorted (fun a b => !(cmp a b == Ordering.gt)) x acc) []

/-- JS `Set` insertion: keep first occurrences, in insertion order. -/
def addDistinct (l : List String) (v : String) : List String :=
  if l.contains v then l else l ++ [v]

/-- The value set loop of `getFieldValues` (app.js lines 248–254): distinct
defined non-empty values of one field across all records, in first-seen
order. -/
def fieldValuesList (records : List Record) (f : String) : List String :=
  records.foldl
    (fun acc r =>
      match assocLookup r f with
      | none => acc
      | some v => if v == "" then acc else addDistinct acc v)
    []

/-- The slice of the mutable `state` object relevant to the record store
and the field-value cache (app.js lines 17–34). -/
structure AppState where
  records : List Record
  fields : List String
  fieldValuesCache : List (String × List String)

/-- `getFieldValues(fieldName)` (app.js lines 242–259): return the cached
value list when one is present, else compute the sorted distinct values
and store them in `state.fieldValuesCache`.  Returns the value list and
the updated state. -/
def getFieldValues (cmp : String → String → Ordering) (st : AppState)
    (fieldName : String) : List String × AppState :=
  match assocLookup st.fieldValuesCache fieldName with
  | some vs => (vs, st)
  | none =>
    let sortedValues := sortByCmp cmp (fieldValuesList st.records fieldName)
    (sortedValues,
     { st with fieldValuesCache := st.fieldValuesCache ++ [(fieldName, sortedValues)] })

/-- The state transition of `handleFileSelect` (app.js lines 920–962): when
the parsed dataset is non-empty, `state.records` and `state.fields` are
replaced (lines 940–942); nothing else in `state` is touched.  An empty
dataset returns early without updating state (lines 934–937). -/
def handleFileSelect (st : AppState) (newRecords : List Record)
    (newFields : List String) : AppState :=
  if newRecords.isEmpty then st
  else { st with records := newRecords, fields := newFields }

/-- The row (or column) value of one record in `generatePivotTable`
(app.js lines 164–165): `record[field] || '(empty)'`. -/
def pivotVal (r : Record) (f : String) : String :=
  let v := getField r f
  if v == "" then "(empty)" else v

/-- The map key of one record (app.js line 170):
``rowVal + "|||" + colVal``. -/
def bucketKey (rf cf : String) (r : Record) : String :=
  pivotVal r rf ++ "|||" ++ pivotVal r cf

/-- JS `Map` update of app.js lines 171–174: push the record onto the
bucket of `key`, creating the bucket (at the end, in insertion order) when
absent. -/
def pivotInsert (key : String) (r : Record) :
    List (String × List Record) → List (String × List Record)
  | [] => [(key, [r])]
  | (k, b) :: rest =>
    if k = key then (k, b ++ [r]) :: rest
    else (k, b) :: pivotInsert key r rest

/-- The accumulator of the `records.forEach` loop of `generatePivotTable`:
the bucket map and the two observed-value sets. -/
structure PivotAccum where
  pivotMap : List (String × List Record)
  rowValues : List String
  colValues : List String

/-- One iteration of the `records.forEach` loop (app.js lines 163–175). -/
def pivotStep (rf cf : String) (acc : PivotAccum) (r : Record) : PivotAccum :=
  let rowVal := pivotVal r rf
  let colVal := pivotVal r cf
  { pivotMap := pivotInsert (rowVal ++ "|||" ++ colVal) r acc.pivotMap,
    rowValues := addDistinct acc.rowValues rowVal,
    colValues := addDistinct acc.colValues colVal }

/-- The object returned by `generatePivotTable` (app.js lines 181–187). -/
structure PivotResult where
  pivotMap : List (String × List Record)
  rowValues : List String
  colValues : List String
  rowField : String
  colField : String

/-- `generatePivotTable(records, rowField, colField)` (app.js lines
157–188), with the locale collator `cmp` passed explicitly. -/
def generatePivotTable (cmp : String → String → Ordering)
    (records : List Record) (rf cf : String) : PivotResult :=
  let acc := records.foldl (pivotStep rf cf) ⟨[], [], []⟩
  { pivotMap := acc.pivotMap,
    rowValues := sortByCmp cmp acc.rowValues,
    colValues := sortByCmp cmp acc.colValues,
    rowField := rf,
    colField := cf }

/-- Total number of records held in a bucket map. -/
def sumBuckets (m : List (String × List Record)) : Nat :=
  (m.map (fun kb => kb.2.length)).sum

/-- The nine operator strings offered by the filter UI (app.js lines
417–425). -/
def recognizedOperators : List String :=
  ["equals", "not-equals", "contains", "not-contains",
   "starts-with", "ends-with", "in-list", "empty", "not-empty"]

/-- A concrete `RegexEngine` for instantiating theorems: it accepts only
pattern strings free of `(`, matching them as case-insensitive literal
substrings (the `i`-flag search semantics), and raises a `SyntaxError` on
a pattern containing `(` (such patterns are unbalanced-group candidates,
like the spec scenario pattern `(unclosed`). -/
def litRegexEngine : RegexEngine where
  compile p :=
    if p.data.contains '(' then Except.error "SyntaxError: unbalanced group"
    else Except.ok (fun s => jsIncludes (jsToLower s) (jsToLower p))

end DekerekePivot


namespace DekerekePivot

/-- Reduction of the exception-monad bind on an error. -/
theorem except_error_bind {ε α β : Type} (e : ε) (k : α → Except ε β) :
    (Except.error e >>= k) = Except.error e := rfl

/-- Reduction of the exception-monad bind on a success. -/
theorem except_ok_bind {ε α β : Type} (a : α) (k : α → Except ε β) :
    (Except.ok a >>= k) = k a := rfl

/-- The exception-monad `pure` is `Except.ok`. -/
theorem except_pure {ε α : Type} (a : α) :
    (pure a : Except ε α) = Except.ok a := rfl

/-- The raw operator result never reads the NOT flag. -/
theorem rawResult_negate_irrel (E : RegexEngine) (r : Record)
    (i : Nat) (f o v : String) (vs : List String) (u n n₂ : Bool) :
    rawResult E r ⟨i, f, o, v, vs, u, n⟩ = rawResult E r ⟨i, f, o, v, vs, u, n₂⟩ := rfl

/-- The exception-monad view of the evaluator always succeeds, returning
the Bool the total evaluator computes: the catch encloses every throwing
operation. -/
theorem evaluateConditionE_eq_ok (E : RegexEngine) (r : Record) (c : Condition) :
    evaluateConditionE E r c = Except.ok (evaluateCondition E r c) := by
  simp only [evaluateConditionE, evaluateCondition, rawResult]
  split
  · rfl
  · split
    · rfl
    · split <;> rfl

/-- Claim C9: negation is a pure involution applied uniformly after
operator evaluation: flipping the `negate` flag of any condition flips the
evaluation result, for every engine, record and condition. -/
theorem C9_negation_involution (E : RegexEngine) (r : Record) (c : Condition) :
    evaluateCondition E r { c with negate := !c.negate } = !(evaluateCondition E r c) := by
  cases c with
  | mk i f o v vs u n =>
    cases n <;>
      simp [evaluateCondition, rawResult_negate_irrel E r i f o v vs u true false]

/-- Claim C8: the condition evaluator never lets an exception reach its
caller (the try/catch confines the only throwing operation, regex
compilation), and the pivot aggregator is a total function returning a
result echoing its field inputs for every record list, including records
lacking the named fields. -/
theorem C8_core_total (E : RegexEngine) (r : Record) (c : Condition)
    (cmp : String → String → Ordering) (records : List Record) (rf cf : String) :
    evaluateConditionE E r c = Except.ok (evaluateCondition E r c) ∧
    (generatePivotTable cmp records rf cf).rowField = rf ∧
    (generatePivotTable cmp records rf cf).colField = cf :=
  ⟨evaluateConditionE_eq_ok E r c, rfl, rfl⟩

/-- Claim C2 (amended): a condition with empty `value`, operator outside
empty / not-empty / in-list, and `negate` clear matches every record
vacuously; with `negate` set the final result is the inverse. -/
theorem C2_empty_value_vacuous (E : RegexEngine) (r : Record) (c : Condition)
    (h1 : c.value = "")
    (h2 : c.operator ∉ (["empty", "not-empty", "in-list"] : List String))
    (h3 : c.negate = false) :
    evaluateCondition E r c = true := by
  simp only [List.mem_cons, List.mem_singleton, List.not_mem_nil, or_false] at h2
  push_neg at h2
  obtain ⟨hemp, hnemp, hil⟩ := h2
  simp [evaluateCondition, rawResult, h1, h3, hemp, hnemp, hil]

/-- Witness for C2: the amended claim at a concrete unconfigured
condition. -/
theorem C2_empty_value_vacuous_witness :
    evaluateCondition litRegexEngine [] ⟨0, "f", "equals", "", [], false, false⟩ = true :=
  C2_empty_value_vacuous litRegexEngine [] ⟨0, "f", "equals", "", [], false, false⟩
    rfl (by decide) rfl

/-- Counterexample to C2 as stated: with `negate` set (one of the "other
flags"), the empty-value condition evaluates to `false`, not `true`. -/
theorem C2_counterexample :
    (⟨0, "f", "equals", "", [], false, true⟩ : Condition).value = "" ∧
    (⟨0, "f", "equals", "", [], false, true⟩ : Condition).operator ∉
      (["empty", "not-empty", "in-list"] : List String) ∧
    evaluateCondition litRegexEngine [] ⟨0, "f", "equals", "", [], false, true⟩ = false :=
  ⟨rfl, by decide, by decide⟩

/-- Claim C3 (amended): a malformed regex pattern never escapes as an
exception, and with `negate` clear and a non-`in-list` operator the
condition fails closed to `false` for every record. -/
theorem C3_malformed_regex_fail_closed (E : RegexEngine) (r : Record) (c : Condition)
    (h1 : c.useRegex = true)
    (h2 : c.value ≠ "")
    (h3 : compileFails E c.value = true)
    (h4 : c.operator ≠ "in-list")
    (h5 : c.negate = false) :
    evaluateCondition E r c = false ∧ evaluateConditionE E r c = Except.ok false := by
  obtain ⟨e, he⟩ : ∃ e, E.compile c.value = Except.error e := by
    unfold compileFails at h3
    cases hc : E.compile c.value with
    | ok f => rw [hc] at h3; cases h3
    | error e => exact ⟨e, rfl⟩
  have hval : (c.value == "") = false := by simp [h2]
  have hmain : evaluateCondition E r c = false := by
    simp [evaluateCondition, rawResult, h1, h4, h5, hval, tryBlock, regexSwitch, he,
      except_error_bind]
  exact ⟨hmain, by rw [evaluateConditionE_eq_ok, hmain]⟩

/-- Witness for C3: the spec scenario pattern `(unclosed` on a concrete
engine that rejects it. -/
theorem C3_malformed_regex_witness :
    evaluateCondition litRegexEngine [] ⟨0, "f", "equals", "(unclosed", [], true, false⟩ = false ∧
    evaluateConditionE litRegexEngine [] ⟨0, "f", "equals", "(unclosed", [], true, false⟩ =
      Except.ok false :=
  C3_malformed_regex_fail_closed litRegexEngine []
    ⟨0, "f", "equals", "(unclosed", [], true, false⟩
    rfl (by decide) (by decide) (by decide) rfl

/-- Counterexample to C3 as stated: a malformed-pattern condition with
`negate` set evaluates to `true`, not `false` (the NOT inversion is
applied after the fail-closed catch). -/
theorem C3_counterexample :
    (⟨0, "f", "equals", "(unclosed", [], true, true⟩ : Condition).useRegex = true ∧
    (⟨0, "f", "equals", "(unclosed", [], true, true⟩ : Condition).value ≠ "" ∧
    compileFails litRegexEngine "(unclosed" = true ∧
    evaluateCondition litRegexEngine [] ⟨0, "f", "equals", "(unclosed", [], true, true⟩ = true :=
  ⟨rfl, by decide, by decide, by decide⟩

end DekerekePivot

namespace DekerekePivot

/-- Claim C5: in-list semantics — an empty `values` list matches every
record (negate clear); a singleton list with negate set excludes exactly
the records whose field value equals the entry case-insensitively; the
`useRegex` flag never affects an in-list condition. -/
theorem C5_in_list_semantics (E : RegexEngine) (r : Record) (c : Condition)
    (v : String) (b : Bool) :
    (c.operator = "in-list" → c.values = [] → c.negate = false →
      evaluateCondition E r c = true) ∧
    (c.operator = "in-list" → c.values = [v] → c.negate = true →
      (evaluateCondition E r c = false ↔ jsToLower (getField r c.field) = jsToLower v)) ∧
    (c.operator = "in-list" →
      evaluateCondition E r { c with useRegex := b } = evaluateCondition E r c) := by
  refine ⟨?_, ?_, ?_⟩
  · intro h1 h2 h3
    simp [evaluateCondition, rawResult, h1, h2, h3]
  · intro h1 h2 h3
    simp [evaluateCondition, rawResult, h1, h2, h3]
  · intro h1
    cases c with
    | mk i f o vl vls ur ng =>
      replace h1 : o = "in-list" := h1
      subst h1
      simp [evaluateCondition, rawResult]

/-- Witness for C5: each clause at a concrete input. -/
theorem C5_in_list_witness :
    evaluateCondition litRegexEngine [("f", "A")] ⟨0, "f", "in-list", "", [], false, false⟩ = true ∧
    (evaluateCondition litRegexEngine [("f", "X")] ⟨0, "f", "in-list", "", ["x"], false, true⟩ = false ↔
      jsToLower (getField [("f", "X")] "f") = jsToLower "x") ∧
    evaluateCondition litRegexEngine [("f", "A")] ⟨0, "f", "in-list", "", ["a"], true, false⟩ =
      evaluateCondition litRegexEngine [("f", "A")] ⟨0, "f", "in-list", "", ["a"], false, false⟩ :=
  ⟨(C5_in_list_semantics litRegexEngine [("f", "A")] ⟨0, "f", "in-list", "", [], false, false⟩
      "x" true).1 rfl rfl rfl,
   (C5_in_list_semantics litRegexEngine [("f", "X")] ⟨0, "f", "in-list", "", ["x"], false, true⟩
      "x" true).2.1 rfl rfl rfl,
   (C5_in_list_semantics litRegexEngine [("f", "A")] ⟨0, "f", "in-list", "", ["a"], false, false⟩
      "x" true).2.2 rfl⟩

/-- Claim C6: with no filter groups, `applyFilters` is the identity; in
general it is exactly the order-preserving filter retaining the records
satisfying at least one group. -/
theorem C6_applyFilters_pipeline (E : RegexEngine) (records : List Record)
    (groups : List FilterGroup) :
    applyFilters E records [] = records ∧
    applyFilters E records groups =
      records.filter
        (fun r => groups.isEmpty || groups.any (fun g => evaluateFilterGroup E r g)) ∧
    (applyFilters E records groups).Sublist records := by
  refine ⟨by simp [applyFilters], ?_, ?_⟩
  · cases groups with
    | nil => simp [applyFilters]
    | cons g gs => simp [applyFilters]
  · cases groups with
    | nil => simp [applyFilters]
    | cons g gs =>
      have h : applyFilters E records (g :: gs) =
          records.filter
            (fun rec => (g :: gs).any (fun gg => evaluateFilterGroup E rec gg)) := by
        simp [applyFilters]
      rw [h]
      exact List.filter_sublist records

/-- Claim C7 (amended): an empty group matches every record; AND demands
every condition; OR over a non-empty condition list demands at least one
condition. -/
theorem C7_group_evaluation (E : RegexEngine) (r : Record) (g : FilterGroup) :
    (g.conditions = [] → evaluateFilterGroup E r g = true) ∧
    (g.logic = "AND" →
      (evaluateFilterGroup E r g = true ↔
        ∀ c ∈ g.conditions, evaluateCondition E r c = true)) ∧
    (g.conditions ≠ [] → g.logic = "OR" →
      (evaluateFilterGroup E r g = true ↔
        ∃ c ∈ g.conditions, evaluateCondition E r c = true)) := by
  refine ⟨?_, ?_, ?_⟩
  · intro h
    simp [evaluateFilterGroup, h]
  · intro h
    cases hc : g.conditions with
    | nil => simp [evaluateFilterGroup, hc]
    | cons a l => simp [evaluateFilterGroup, hc, h]
  · intro h hlogic
    cases hc : g.conditions with
    | nil => exact absurd hc h
    | cons a l =>
      have hand : (g.logic == "AND") = false := by simp [hlogic]
      simp [evaluateFilterGroup, hc, hand]

/-- Counterexample to C7 as stated: a group with `logic = OR` and no
conditions evaluates to `true` although no condition in it evaluates to
`true` — the empty-group rule takes precedence over the OR rule. -/
theorem C7_counterexample :
    (⟨1, "OR", []⟩ : FilterGroup).logic = "OR" ∧
    evaluateFilterGroup litRegexEngine [] ⟨1, "OR", []⟩ = true ∧
    ¬∃ c ∈ (⟨1, "OR", []⟩ : FilterGroup).conditions,
        evaluateCondition litRegexEngine [] c = true :=
  ⟨rfl, rfl, by simp⟩

/-- Witness for C7: the amended clauses at concrete groups. -/
theorem C7_group_evaluation_witness :
    evaluateFilterGroup litRegexEngine [("f", "a")] ⟨1, "AND", []⟩ = true ∧
    evaluateFilterGroup litRegexEngine [("f", "a")]
      ⟨1, "AND", [⟨0, "f", "equals", "a", [], false, false⟩]⟩ = true ∧
    evaluateFilterGroup litRegexEngine [("f", "a")]
      ⟨1, "OR", [⟨0, "f", "equals", "a", [], false, false⟩]⟩ = true :=
  ⟨(C7_group_evaluation litRegexEngine [("f", "a")] ⟨1, "AND", []⟩).1 rfl,
   ((C7_group_evaluation litRegexEngine [("f", "a")]
      ⟨1, "AND", [⟨0, "f", "equals", "a", [], false, false⟩]⟩).2.1 rfl).mpr (by decide),
   ((C7_group_evaluation litRegexEngine [("f", "a")]
      ⟨1, "OR", [⟨0, "f", "equals", "a", [], false, false⟩]⟩).2.2 (by decide) rfl).mpr
     ⟨⟨0, "f", "equals", "a", [], false, false⟩, by decide, by decide⟩⟩

/-- Claim C10 (amended): an unrecognized operator string with non-empty
value yields raw result `true` (permissive default branch), provided that
in regex mode the value compiles; a non-compiling pattern instead falls
into the catch and yields `false`. -/
theorem C10_default_branch_vacuous (E : RegexEngine) (r : Record) (c : Condition)
    (h1 : c.operator ∉ recognizedOperators)
    (h2 : c.value ≠ "")
    (h3 : c.useRegex = true → compileFails E c.value = false) :
    rawResult E r c = true := by
  simp only [recognizedOperators, List.mem_cons, List.mem_singleton,
    List.not_mem_nil, or_false] at h1
  push_neg at h1
  obtain ⟨heq, hneq, hcon, hncon, hsw, hew, hil, hemp, hnemp⟩ := h1
  have hval : (c.value == "") = false := by simp [h2]
  cases hur : c.useRegex with
  | false =>
    simp [rawResult, hil, hval, tryBlock, hur, plainSwitch, except_pure,
      heq, hneq, hcon, hncon, hsw, hew, hemp, hnemp]
  | true =>
    obtain ⟨f, hf⟩ : ∃ f, E.compile c.value = Except.ok f := by
      have hc := h3 hur
      unfold compileFails at hc
      cases hcv : E.compile c.value with
      | ok f => exact ⟨f, rfl⟩
      | error e => rw [hcv] at hc; cases hc
    simp [rawResult, hil, hval, tryBlock, hur, regexSwitch, hf, except_ok_bind, except_pure,
      heq, hneq, hcon, hncon, hsw, hew]

/-- Counterexample to C10 as stated: an unrecognized operator with a
non-empty malformed pattern in regex mode yields raw result `false` (the
bare pattern is compiled before the dispatch and the error is caught),
not `true`. -/
theorem C10_counterexample :
    (⟨0, "f", "frobnicate", "(unclosed", [], true, false⟩ : Condition).operator ∉
      recognizedOperators ∧
    (⟨0, "f", "frobnicate", "(unclosed", [], true, false⟩ : Condition).value ≠ "" ∧
    rawResult litRegexEngine [] ⟨0, "f", "frobnicate", "(unclosed", [], true, false⟩ = false :=
  ⟨by decide, by decide, by decide⟩

/-- Witness for C10: an unrecognized operator with a compiling pattern. -/
theorem C10_default_branch_witness :
    rawResult litRegexEngine [] ⟨0, "f", "frobnicate", "abc", [], true, false⟩ = true :=
  C10_default_branch_vacuous litRegexEngine []
    ⟨0, "f", "frobnicate", "abc", [], true, false⟩
    (by decide) (by decide) (fun _ => by decide)

end DekerekePivot

namespace DekerekePivot

/-- Pushing one record into the bucket map grows the total count by one. -/
theorem sumBuckets_cons (k : String) (b : List Record)
    (rest : List (String × List Record)) :
    sumBuckets ((k, b) :: rest) = b.length + sumBuckets rest := by
  simp [sumBuckets]

/-- Pushing one record into the bucket map grows the total count by one. -/
theorem sumBuckets_pivotInsert (key : String) (r : Record)
    (m : List (String × List Record)) :
    sumBuckets (pivotInsert key r m) = sumBuckets m + 1 := by
  induction m with
  | nil => simp [pivotInsert, sumBuckets]
  | cons kb rest ih =>
    obtain ⟨k, bb⟩ := kb
    by_cases h : k = key
    · simp [pivotInsert, h, sumBuckets_cons]
      omega
    · simp [pivotInsert, h, sumBuckets_cons, ih]
      omega

/-- The forEach loop of `generatePivotTable` adds each record to the
bucket map exactly once: the total bucket count grows by the number of
records consumed. -/
theorem sumBuckets_foldl (rf cf : String) (records : List Record) (acc : PivotAccum) :
    sumBuckets ((records.foldl (pivotStep rf cf) acc).pivotMap) =
      sumBuckets acc.pivotMap + records.length := by
  induction records generalizing acc with
  | nil => simp
  | cons r rest ih =>
    rw [List.foldl_cons, ih]
    simp [pivotStep, sumBuckets_pivotInsert]
    omega

/-- After pushing `r` under `key`, the bucket looked up at `key` exists
and holds `r`. -/
theorem assocLookup_pivotInsert_self (key : String) (r : Record)
    (m : List (String × List Record)) :
    ∃ b, assocLookup (pivotInsert key r m) key = some b ∧ r ∈ b := by
  induction m with
  | nil => exact ⟨[r], by simp [pivotInsert, assocLookup], by simp⟩
  | cons kb rest ih =>
    obtain ⟨k, bb⟩ := kb
    by_cases h : k = key
    · subst h
      exact ⟨bb ++ [r], by simp [pivotInsert, assocLookup], by simp⟩
    · obtain ⟨b, hb, hr⟩ := ih
      exact ⟨b, by simp [pivotInsert, h, assocLookup, hb], hr⟩

/-- Pushing a record under any key preserves every record already present
in any looked-up bucket. -/
theorem assocLookup_pivotInsert_mono (key₂ : String) (r₂ : Record)
    (m : List (String × List Record)) (key : String) (b : List Record) (r : Record)
    (hb : assocLookup m key = some b) (hr : r ∈ b) :
    ∃ b₂, assocLookup (pivotInsert key₂ r₂ m) key = some b₂ ∧ r ∈ b₂ := by
  induction m generalizing b with
  | nil => simp [assocLookup] at hb
  | cons kb rest ih =>
    obtain ⟨k, bb⟩ := kb
    by_cases hk2 : k = key₂
    · by_cases hkey : k = key
      · subst hkey
        subst hk2
        simp [assocLookup] at hb
        subst hb
        refine ⟨bb ++ [r₂], by simp [pivotInsert, assocLookup], ?_⟩
        exact List.mem_append_left _ hr
      · subst hk2
        simp [assocLookup, hkey] at hb
        exact ⟨b, by simp [pivotInsert, assocLookup, hkey, hb], hr⟩
    · by_cases hkey : k = key
      · subst hkey
        simp [assocLookup] at hb
        subst hb
        exact ⟨bb, by simp [pivotInsert, hk2, assocLookup], hr⟩
      · simp [assocLookup, hkey] at hb
        obtain ⟨b₂, hb₂, hr₂⟩ := ih b hb hr
        exact ⟨b₂, by simp [pivotInsert, hk2, assocLookup, hkey, hb₂], hr₂⟩

/-- The forEach loop preserves bucket membership established earlier. -/
theorem lookup_foldl_mono (rf cf : String) (records : List Record)
    (acc : PivotAccum) (key : String) (b : List Record) (r : Record)
    (hb : assocLookup acc.pivotMap key = some b) (hr : r ∈ b) :
    ∃ b₂, assocLookup ((records.foldl (pivotStep rf cf) acc).pivotMap) key = some b₂ ∧
      r ∈ b₂ := by
  induction records generalizing acc b with
  | nil => exact ⟨b, hb, hr⟩
  | cons r₀ rest ih =>
    rw [List.foldl_cons]
    obtain ⟨b₂, hb₂, hr₂⟩ :=
      assocLookup_pivotInsert_mono (bucketKey rf cf r₀) r₀ acc.pivotMap key b r hb hr
    exact ih (pivotStep rf cf acc r₀) b₂ hb₂ hr₂

/-- Every record consumed by the forEach loop ends up in the bucket of its
own key. -/
theorem mem_bucket_foldl (rf cf : String) (records : List Record)
    (acc : PivotAccum) (r : Record) (hr : r ∈ records) :
    ∃ b, assocLookup ((records.foldl (pivotStep rf cf) acc).pivotMap)
      (bucketKey rf cf r) = some b ∧ r ∈ b := by
  induction records generalizing acc with
  | nil => cases hr
  | cons r₀ rest ih =>
    rw [List.foldl_cons]
    rcases List.mem_cons.mp hr with h | h
    · subst h
      obtain ⟨b, hb, hm⟩ := assocLookup_pivotInsert_self (bucketKey rf cf r) r acc.pivotMap
      exact lookup_foldl_mono rf cf rest (pivotStep rf cf acc r) (bucketKey rf cf r) b r hb hm
    · exact ih (pivotStep rf cf acc r₀) h

/-- Claim C4: `generatePivotTable` partitions its input: bucket counts sum
to the number of records, and every input record is a member of the
bucket looked up at its own row/column key; for every record list and
every pair of field names. -/
theorem C4_generatePivot_partitions (cmp : String → String → Ordering)
    (records : List Record) (rf cf : String) :
    sumBuckets (generatePivotTable cmp records rf cf).pivotMap = records.length ∧
    ∀ r ∈ records,
      ∃ b, assocLookup (generatePivotTable cmp records rf cf).pivotMap (bucketKey rf cf r) =
        some b ∧ r ∈ b := by
  constructor
  · have h := sumBuckets_foldl rf cf records ⟨[], [], []⟩
    simpa [generatePivotTable, sumBuckets] using h
  · intro r hr
    have h := mem_bucket_foldl rf cf records ⟨[], [], []⟩ r hr
    simpa [generatePivotTable] using h

/-- Witness for C4: a three-record dataset, one record lacking the column
field, lands in the right buckets with counts summing to three. -/
theorem C4_generatePivot_witness :
    sumBuckets (generatePivotTable compare
      [[("A", "x"), ("B", "y")], [("A", "x")], [("C", "z")]] "A" "B").pivotMap = 3 ∧
    (∃ b, assocLookup (generatePivotTable compare
      [[("A", "x"), ("B", "y")], [("A", "x")], [("C", "z")]] "A" "B").pivotMap
        (bucketKey "A" "B" [("A", "x")]) = some b ∧ [("A", "x")] ∈ b) :=
  ⟨(C4_generatePivot_partitions compare
      [[("A", "x"), ("B", "y")], [("A", "x")], [("C", "z")]] "A" "B").1,
   (C4_generatePivot_partitions compare
      [[("A", "x"), ("B", "y")], [("A", "x")], [("C", "z")]] "A" "B").2
     [("A", "x")] (by decide)⟩

end DekerekePivot

namespace DekerekePivot

/-- Claim C1 (code defect, evaluated at the failing input):
`handleFileSelect` replaces `state.records` and `state.fields` but never
clears `state.fieldValuesCache`, so after a first `getFieldValues` call
cached the value list of the old dataset, loading a new dataset and
querying the same field returns the stale cached list.  Concretely: the
old dataset's only `Category` value is `"old"`; after the new dataset
(whose only `Category` value is `"new"`) replaces the record store, the
second query still returns `["old"]`, while the values derivable from the
new records are `["new"]`. -/
theorem C1_fieldValuesCache_never_invalidated :
    (getFieldValues compare
      (handleFileSelect
        (getFieldValues compare ⟨[[("Category", "old")]], ["Category"], []⟩ "Category").2
        [[("Category", "new")]] ["Category"])
      "Category").1 = ["old"] ∧
    (handleFileSelect
      (getFieldValues compare ⟨[[("Category", "old")]], ["Category"], []⟩ "Category").2
      [[("Category", "new")]] ["Category"]).records = [[("Category", "new")]] ∧
    fieldValuesList [[("Category", "new")]] "Category" = ["new"] ∧
    "old" ∉ fieldValuesList [[("Category", "new")]] "Category" :=
  ⟨by decide, by decide, by decide, by decide⟩

end DekerekePivot
